import Mathlib

/-!
Verification of the field-visibility logic in `staticfiles/admin/js/offers_dynamic.js`
(two variants: `initOfferTypeFields` / `toggleOfferFields` and
`initOfferTypeToggles` / `toggleFields`) and of the drawer-closing logic in
`staticfiles/js/header.js`.

The DOM is shallowly embedded: a form inline (`Inline`) carries the current
value of its `offer_type` selector (`none` when the inline has no selector
element), a predicate saying for which of the five fields a visual row can be
located, the current CSS `display` value of each row, and a count of registered
change listeners.  Setting a row's style is explicit state passing; DOM lookup
failure is the `located` predicate returning `false`.
-/

namespace TravelWild

/-- The five field identifiers iterated over by both variants:
`["hours", "classes", "students", "instructors", "level"]`. -/
inductive Field where
  | hours
  | classes
  | students
  | instructors
  | level
deriving DecidableEq

/-- The `fields` array literal, in source order. -/
def fieldsOrder : List Field :=
  [Field.hours, Field.classes, Field.students, Field.instructors, Field.level]

/-- The array literal `["hours", "students", "instructors"]` of the `lesson` case. -/
def lessonFields : List Field := [Field.hours, Field.students, Field.instructors]

/-- The array literal `["classes", "level"]` of the `course` case. -/
def courseFields : List Field := [Field.classes, Field.level]

/-- The array literal `["level"]` of the `experience` case. -/
def experienceFields : List Field := [Field.level]

/-- One admin inline (`div.inline-related`): selector value if a
`select[id$='offer_type']` element exists, which field rows can be located,
each row's current `display` style, and how many change listeners are attached. -/
structure Inline where
  selVal : Option String
  located : Field → Bool
  display : Field → String
  listeners : Nat

/-- The `switch (val)` of `toggleOfferFields` (offers_dynamic.js, first variant):
given the already-lowercased selector value and a field, the `display` value the
field row is assigned.  The `default` branch shows the row (empty string). -/
def switchDisplay (val : String) (f : Field) : String :=
  if val = "lesson" then (if f ∈ lessonFields then "" else "none")
  else if val = "course" then (if f ∈ courseFields then "" else "none")
  else if val = "experience" then (if f ∈ experienceFields then "" else "none")
  else if val = "rental" then "none"
  else ""

/-- The if/else chain of `toggleFields` (offers_dynamic.js, second variant):
the raw selector value is compared, there is no `rental` branch, and the final
`else` hides the row. -/
def ifChainDisplay (val : String) (f : Field) : String :=
  if val = "lesson" then (if f ∈ lessonFields then "" else "none")
  else if val = "course" then (if f ∈ courseFields then "" else "none")
  else if val = "experience" then (if f ∈ experienceFields then "" else "none")
  else "none"

/-- The body of `fields.forEach((f) => ...)` shared by both variants: locate the
row for `f`; if none is found return the inline unchanged (`if (!field) return`),
otherwise set that row's `display` style to the value the variant computes. -/
def applyFieldStep (dispOf : String → Field → String) (val : String)
    (inst : Inline) (f : Field) : Inline :=
  if inst.located f then
    { inst with display := fun g => if g = f then dispOf val f else inst.display g }
  else
    inst

/-- The loop `fields.forEach(...)`: fold the per-field step over the iteration order. -/
def runToggle (dispOf : String → Field → String) (order : List Field)
    (val : String) (inst : Inline) : Inline :=
  order.foldl (applyFieldStep dispOf val) inst

/-- The closure `toggleOfferFields` of the first variant, parameterized by the
iteration order of the `fields` array: reads `select.value?.toLowerCase()` and applies the
`switch` to every locatable row.  An inline with no selector is never toggled
(the enclosing `initOfferTypeFields` returns early before defining it). -/
def toggleOfferFieldsWith (order : List Field) (inst : Inline) : Inline :=
  match inst.selVal with
  | none => inst
  | some v => runToggle switchDisplay order v.toLower inst

/-- The closure `toggleOfferFields` with the source's field order. -/
def toggleOfferFields (inst : Inline) : Inline :=
  toggleOfferFieldsWith fieldsOrder inst

/-- The closure `toggleFields` of the second variant, parameterized by the iteration order:
reads the raw `select.value` and applies the if/else chain to every locatable row. -/
def toggleFieldsWith (order : List Field) (inst : Inline) : Inline :=
  match inst.selVal with
  | none => inst
  | some v => runToggle ifChainDisplay order v inst

/-- The closure `toggleFields` with the source's field order. -/
def toggleFields (inst : Inline) : Inline :=
  toggleFieldsWith fieldsOrder inst

/-- The per-inline body of `initOfferTypeFields`: `if (!select) return;` skips
the inline, otherwise `select.addEventListener("change", toggleOfferFields)` is
registered and `toggleOfferFields()` runs once immediately. -/
def initStep1 (inline : Inline) : Inline :=
  match inline.selVal with
  | none => inline
  | some _ => toggleOfferFields { inline with listeners := inline.listeners + 1 }

/-- The function `initOfferTypeFields(context)`: process every inline in the scope. -/
def initOfferTypeFields (page : List Inline) : List Inline :=
  page.map initStep1

/-- The `formset:added` handler of the first variant: re-run
`initOfferTypeFields` scoped to the newly inserted form. -/
def formsetAddedFields (newForm : List Inline) : List Inline :=
  initOfferTypeFields newForm

/-- The per-inline body of `initOfferTypeToggles` (second variant). -/
def initStep2 (inline : Inline) : Inline :=
  match inline.selVal with
  | none => inline
  | some _ => toggleFields { inline with listeners := inline.listeners + 1 }

/-- The function `initOfferTypeToggles(context)`: process every inline in the scope. -/
def initOfferTypeToggles (page : List Inline) : List Inline :=
  page.map initStep2

/-- Apply a function to the element at one index of a page, leaving the rest alone. -/
def updateAt : List Inline → Nat → (Inline → Inline) → List Inline
  | [], _, _ => []
  | x :: xs, 0, f => f x :: xs
  | x :: xs, n + 1, f => x :: updateAt xs n f

/-- A user sets the `offer_type` selector of the inline at index `i` to `v`;
its change listener fires `toggleOfferFields`, which is scoped to that inline. -/
def changeModeAndFire (page : List Inline) (i : Nat) (v : String) : List Inline :=
  updateAt page i (fun inl => toggleOfferFields { inl with selVal := some v })

/-- The rule table of spec section 3, written from the spec's words (not from the
code), for comparison: lesson shows hours, students, instructors; course shows
classes, level; experience shows level; rental shows nothing. -/
def specVisibleSet (m : String) : List Field :=
  if m = "lesson" then [Field.hours, Field.students, Field.instructors]
  else if m = "course" then [Field.classes, Field.level]
  else if m = "experience" then [Field.level]
  else if m = "rental" then []
  else fieldsOrder

/-- An inline whose selector holds `v`, with every field row locatable and shown. -/
def sampleInline (v : String) : Inline where
  selVal := some v
  located := fun _ => true
  display := fun _ => ""
  listeners := 0

/-- An inline whose `hours` row cannot be located; all other rows are locatable. -/
def gappyInline : Inline where
  selVal := some "lesson"
  located := fun f => match f with | Field.hours => false | _ => true
  display := fun _ => ""
  listeners := 0

/-- An inline with no `offer_type` selector element. -/
def noSelInline : Inline where
  selVal := none
  located := fun _ => true
  display := fun _ => ""
  listeners := 0

/-- The header page state of `header.js`: whether a `.mobile-drawer` element
exists (and if so whether it has class `is-open`), whether the overlay and the
close button exist, and whether `body` has class `no-scroll`. -/
structure HeaderPage where
  mobileDrawer : Option Bool
  hasOverlay : Bool
  hasCloseBtn : Bool
  noScroll : Bool

/-- The function `closeDrawer` of header.js: `mobileDrawer.classList.remove("is-open")`
dereferences `mobileDrawer` unconditionally, so when no `.mobile-drawer` element
exists the call throws a TypeError; otherwise it removes `is-open` and `no-scroll`. -/
def closeDrawer (p : HeaderPage) : Except String HeaderPage :=
  match p.mobileDrawer with
  | none => Except.error "TypeError"
  | some _ => Except.ok { p with mobileDrawer := some false, noScroll := false }

/-- A click on the overlay: header.js registers `closeDrawer` whenever the
overlay element exists (`if (overlay) overlay.addEventListener(...)`), with no
check that the drawer exists.  With no handler registered the click does nothing. -/
def clickOverlay (p : HeaderPage) : Except String HeaderPage :=
  if p.hasOverlay then closeDrawer p else Except.ok p

/-- A click on the close button, registered under `if (closeBtn)` only. -/
def clickCloseBtn (p : HeaderPage) : Except String HeaderPage :=
  if p.hasCloseBtn then closeDrawer p else Except.ok p

/-- A page with overlay and close button present but no `.mobile-drawer` element. -/
def drawerlessPage : HeaderPage where
  mobileDrawer := none
  hasOverlay := true
  hasCloseBtn := true
  noScroll := false

/-- A two-inline page: the first inline has no selector, the second does. -/
def mixedPage : List Inline := [noSelInline, sampleInline "lesson"]

/-- A two-inline page for the isolation witness. -/
def twoInlinePage : List Inline := [sampleInline "lesson", sampleInline "course"]

/-! ### Helper lemmas -/

/-- Every field occurs in the source's iteration order. -/
theorem mem_fieldsOrder (g : Field) : g ∈ fieldsOrder := by
  cases g <;> simp [fieldsOrder]

theorem applyFieldStep_selVal (dispOf : String → Field → String) (val : String)
    (inst : Inline) (f : Field) :
    (applyFieldStep dispOf val inst f).selVal = inst.selVal := by
  unfold applyFieldStep
  split <;> rfl

theorem applyFieldStep_located (dispOf : String → Field → String) (val : String)
    (inst : Inline) (f : Field) :
    (applyFieldStep dispOf val inst f).located = inst.located := by
  unfold applyFieldStep
  split <;> rfl

theorem applyFieldStep_listeners (dispOf : String → Field → String) (val : String)
    (inst : Inline) (f : Field) :
    (applyFieldStep dispOf val inst f).listeners = inst.listeners := by
  unfold applyFieldStep
  split <;> rfl

theorem applyFieldStep_display (dispOf : String → Field → String) (val : String)
    (inst : Inline) (f g : Field) :
    (applyFieldStep dispOf val inst f).display g =
      if g = f ∧ inst.located f = true then dispOf val f else inst.display g := by
  unfold applyFieldStep
  by_cases hl : inst.located f
  · rw [if_pos hl]
    show (if g = f then dispOf val f else inst.display g) = _
    by_cases hg : g = f
    · simp [hg, hl]
    · simp [hg]
  · rw [if_neg hl]
    have hna : ¬(g = f ∧ inst.located f = true) := fun hc => hl hc.2
    rw [if_neg hna]

theorem runToggle_selVal (dispOf : String → Field → String) (order : List Field)
    (val : String) (inst : Inline) :
    (runToggle dispOf order val inst).selVal = inst.selVal := by
  induction order generalizing inst with
  | nil => rfl
  | cons a rest ih =>
    simp only [runToggle, List.foldl_cons] at *
    rw [ih, applyFieldStep_selVal]

theorem runToggle_located (dispOf : String → Field → String) (order : List Field)
    (val : String) (inst : Inline) :
    (runToggle dispOf order val inst).located = inst.located := by
  induction order generalizing inst with
  | nil => rfl
  | cons a rest ih =>
    simp only [runToggle, List.foldl_cons] at *
    rw [ih, applyFieldStep_located]

theorem runToggle_listeners (dispOf : String → Field → String) (order : List Field)
    (val : String) (inst : Inline) :
    (runToggle dispOf order val inst).listeners = inst.listeners := by
  induction order generalizing inst with
  | nil => rfl
  | cons a rest ih =>
    simp only [runToggle, List.foldl_cons] at *
    rw [ih, applyFieldStep_listeners]

/-- One pass of `fields.forEach` over any iteration order sets each locatable
row that the order mentions to the computed value and touches nothing else. -/
theorem runToggle_display (dispOf : String → Field → String) (order : List Field)
    (val : String) (inst : Inline) (g : Field) :
    (runToggle dispOf order val inst).display g =
      if g ∈ order ∧ inst.located g = true then dispOf val g else inst.display g := by
  induction order generalizing inst with
  | nil => simp [runToggle]
  | cons a rest ih =>
    simp only [runToggle, List.foldl_cons] at *
    rw [ih, applyFieldStep_located, applyFieldStep_display]
    by_cases hg : g = a
    · subst hg
      by_cases hl : inst.located g = true
      · simp [hl]
      · simp [hl]
    · by_cases hl : inst.located g = true
      · by_cases hr : g ∈ rest <;> simp [hg, hl, hr]
      · simp [hg, hl]

theorem toggleOfferFieldsWith_display (order : List Field) (inst : Inline)
    (v : String) (hsel : inst.selVal = some v) (g : Field) :
    (toggleOfferFieldsWith order inst).display g =
      if g ∈ order ∧ inst.located g = true then switchDisplay v.toLower g
      else inst.display g := by
  unfold toggleOfferFieldsWith
  rw [hsel]
  exact runToggle_display switchDisplay order v.toLower inst g

theorem toggleFieldsWith_display (order : List Field) (inst : Inline)
    (v : String) (hsel : inst.selVal = some v) (g : Field) :
    (toggleFieldsWith order inst).display g =
      if g ∈ order ∧ inst.located g = true then ifChainDisplay v g
      else inst.display g := by
  unfold toggleFieldsWith
  rw [hsel]
  exact runToggle_display ifChainDisplay order v inst g

/-- Lowering is idempotent on characters: `Char.toLower` lands outside the
uppercase ASCII range, so lowering again is the identity. -/
theorem charToLower_idem (c : Char) : c.toLower.toLower = c.toLower := by
  unfold Char.toLower
  by_cases h : c.toNat ≥ 65 ∧ c.toNat ≤ 90
  · rw [if_pos h]
    have hv : (c.toNat + 32).isValidChar := Or.inl (by omega)
    have ht : (Char.ofNat (c.toNat + 32)).toNat = c.toNat + 32 := by
      unfold Char.ofNat
      rw [dif_pos hv]
      rfl
    rw [if_neg (by omega)]
  · rw [if_neg h, if_neg h]

/-- Lowering is idempotent on strings (`String.toLower` embeds JavaScript `toLowerCase`). -/
theorem stringToLower_idem (s : String) : s.toLower.toLower = s.toLower := by
  simp only [String.toLower, String.map_eq, List.map_map]
  exact congrArg String.mk (List.map_congr_left fun a _ => charToLower_idem a)

theorem toLower_lesson : ("lesson" : String).toLower = "lesson" := by
  simp only [String.toLower]
  rw [String.map_eq]
  decide

theorem toLower_course : ("course" : String).toLower = "course" := by
  simp only [String.toLower]
  rw [String.map_eq]
  decide

theorem toLower_experience : ("experience" : String).toLower = "experience" := by
  simp only [String.toLower]
  rw [String.map_eq]
  decide

theorem toLower_rental : ("rental" : String).toLower = "rental" := by
  simp only [String.toLower]
  rw [String.map_eq]
  decide

theorem toLower_mixed_lesson : ("Lesson" : String).toLower = "lesson" := by
  simp only [String.toLower]
  rw [String.map_eq]
  decide

theorem toLower_empty : ("" : String).toLower = "" := by
  simp only [String.toLower]
  rw [String.map_eq]
  decide

/-- Two inlines with equal components are equal. -/
theorem inlineExt (a b : Inline) (h1 : a.selVal = b.selVal)
    (h2 : a.located = b.located) (h3 : a.display = b.display)
    (h4 : a.listeners = b.listeners) : a = b := by
  cases a
  cases b
  simp_all

/-- One forEach pass absorbs a second identical pass. -/
theorem runToggle_idem (dispOf : String → Field → String) (order : List Field)
    (val : String) (inst : Inline) :
    runToggle dispOf order val (runToggle dispOf order val inst)
      = runToggle dispOf order val inst := by
  apply inlineExt
  · rw [runToggle_selVal, runToggle_selVal]
  · rw [runToggle_located, runToggle_located]
  · funext g
    rw [runToggle_display, runToggle_located, runToggle_display]
    by_cases hc : g ∈ order ∧ inst.located g = true
    · rw [if_pos hc, if_pos hc]
    · rw [if_neg hc, if_neg hc]
  · rw [runToggle_listeners, runToggle_listeners]

/-- Evaluating `toggleOfferFields` on an inline whose selector holds `v` is the forEach
pass with the lowercased value. -/
theorem toggleOfferFields_eq (inst : Inline) (v : String)
    (hsel : inst.selVal = some v) :
    toggleOfferFields inst = runToggle switchDisplay fieldsOrder v.toLower inst := by
  simp only [toggleOfferFields, toggleOfferFieldsWith, hsel]

/-- Evaluating `toggleFields` on an inline whose selector holds `v` is the forEach pass
with the raw value. -/
theorem toggleFields_eq (inst : Inline) (v : String)
    (hsel : inst.selVal = some v) :
    toggleFields inst = runToggle ifChainDisplay fieldsOrder v inst := by
  simp only [toggleFields, toggleFieldsWith, hsel]

/-- Indexing into a mapped page is mapping the indexed element. -/
theorem get?_map_inline (f : Inline → Inline) (l : List Inline) (n : Nat) :
    (l.map f).get? n = (l.get? n).map f := by
  induction l generalizing n with
  | nil => rfl
  | cons x xs ih =>
    cases n with
    | zero => rfl
    | succ n2 => exact ih n2

/-- Updating index `i` leaves every other index untouched. -/
theorem updateAt_get_ne (l : List Inline) (i j : Nat) (f : Inline → Inline)
    (hne : j ≠ i) : (updateAt l i f).get? j = l.get? j := by
  induction l generalizing i j with
  | nil => rfl
  | cons x xs ih =>
    cases i with
    | zero =>
      cases j with
      | zero => exact absurd rfl hne
      | succ j2 => rfl
    | succ i2 =>
      cases j with
      | zero => rfl
      | succ j2 =>
        show (updateAt xs i2 f).get? j2 = xs.get? j2
        exact ih i2 j2 (fun h => hne (congrArg Nat.succ h))

/-! ### Claims -/

/-- C1: for every recognized mode in lesson, course, experience, rental, one
visibility evaluation (in either variant) sets every locatable row of a field
in the rule table of spec section 3 to shown and every other locatable row to
hidden, for any iteration order of the five fields. -/
theorem c1_rule_table (m : String)
    (hm : m ∈ (["lesson", "course", "experience", "rental"] : List String))
    (order : List Field) (hperm : order.Perm fieldsOrder)
    (inst : Inline) (hsel : inst.selVal = some m)
    (g : Field) (hloc : inst.located g = true) :
    (toggleOfferFieldsWith order inst).display g
        = (if g ∈ specVisibleSet m then "" else "none")
    ∧ (toggleFieldsWith order inst).display g
        = (if g ∈ specVisibleSet m then "" else "none") := by
  have hmem : g ∈ order := hperm.mem_iff.mpr (mem_fieldsOrder g)
  have hc : g ∈ order ∧ inst.located g = true := ⟨hmem, hloc⟩
  rw [toggleOfferFieldsWith_display order inst m hsel g,
    toggleFieldsWith_display order inst m hsel g,
    if_pos hc, if_pos hc]
  simp only [List.mem_cons, List.not_mem_nil, or_false] at hm
  rcases hm with rfl | rfl | rfl | rfl
  · rw [toLower_lesson]
    cases g <;> exact ⟨by decide, by decide⟩
  · rw [toLower_course]
    cases g <;> exact ⟨by decide, by decide⟩
  · rw [toLower_experience]
    cases g <;> exact ⟨by decide, by decide⟩
  · rw [toLower_rental]
    cases g <;> exact ⟨by decide, by decide⟩

/-- Witness for C1: mode "rental" on a fully locatable inline hides the hours
row in both variants, matching the empty rule-table entry. -/
theorem c1_rule_table_witness :
    (toggleOfferFieldsWith fieldsOrder (sampleInline "rental")).display Field.hours
        = (if Field.hours ∈ specVisibleSet "rental" then "" else "none")
    ∧ (toggleFieldsWith fieldsOrder (sampleInline "rental")).display Field.hours
        = (if Field.hours ∈ specVisibleSet "rental" then "" else "none") :=
  c1_rule_table "rental" (by decide) fieldsOrder (List.Perm.refl fieldsOrder)
    (sampleInline "rental") rfl Field.hours rfl

/-- C2 counterexample: the claim says every unrecognized mode (the empty string
included) shows all five fields in every code path.  In the `toggleFields` path
the empty string hides the locatable hours row, and in the `toggleOfferFields`
path the unrecognized raw value "Lesson" hides the classes row rather than
showing all five. -/
theorem c2_counterexample :
    (toggleFields (sampleInline "")).display Field.hours = "none"
    ∧ (toggleOfferFields (sampleInline "Lesson")).display Field.classes = "none" := by
  constructor
  · simp only [toggleFields]
    rw [toggleFieldsWith_display fieldsOrder (sampleInline "") "" rfl Field.hours]
    decide
  · simp only [toggleOfferFields]
    rw [toggleOfferFieldsWith_display fieldsOrder (sampleInline "Lesson") "Lesson" rfl
      Field.classes, toLower_mixed_lesson]
    decide

/-- C2 amended: for every mode value whose lowercasing is not in lesson, course,
experience, rental (the empty string included), the `initOfferTypeFields` path
shows all five locatable fields (display set to the empty string), while the
`initOfferTypeToggles` path instead hides every locatable field. -/
theorem c2_amended_fallback (v : String)
    (hv : v.toLower ∉ (["lesson", "course", "experience", "rental"] : List String))
    (inst : Inline) (hsel : inst.selVal = some v) (g : Field)
    (hloc : inst.located g = true) :
    (toggleOfferFields inst).display g = ""
    ∧ (toggleFields inst).display g = "none" := by
  simp only [List.mem_cons, List.not_mem_nil, or_false, not_or] at hv
  obtain ⟨h1, h2, h3, h4⟩ := hv
  have hc : g ∈ fieldsOrder ∧ inst.located g = true := ⟨mem_fieldsOrder g, hloc⟩
  constructor
  · simp only [toggleOfferFields]
    rw [toggleOfferFieldsWith_display fieldsOrder inst v hsel g, if_pos hc]
    simp [switchDisplay, h1, h2, h3, h4]
  · have g1 : v ≠ "lesson" := fun he => h1 (by rw [he, toLower_lesson])
    have g2 : v ≠ "course" := fun he => h2 (by rw [he, toLower_course])
    have g3 : v ≠ "experience" := fun he => h3 (by rw [he, toLower_experience])
    simp only [toggleFields]
    rw [toggleFieldsWith_display fieldsOrder inst v hsel g, if_pos hc]
    simp [ifChainDisplay, g1, g2, g3]

/-- Witness for the amended C2: the empty selector value on a fully locatable
inline shows the hours row in the first variant and hides it in the second. -/
theorem c2_amended_fallback_witness :
    (toggleOfferFields (sampleInline "")).display Field.hours = ""
    ∧ (toggleFields (sampleInline "")).display Field.hours = "none" :=
  c2_amended_fallback "" (by rw [toLower_empty]; decide)
    (sampleInline "") rfl Field.hours rfl

/-- C8: mode matching is case-insensitive in `toggleOfferFields` (the computed
display for selector value `s` equals that for the lowercased `s`) and
case-sensitive in `toggleFields`, and the mixed-case value "Lesson" makes the
two paths compute different visibility for the hours row. -/
theorem c8_case_sensitivity :
    (∀ (inst : Inline) (s : String) (g : Field),
      (toggleOfferFields { inst with selVal := some s }).display g
        = (toggleOfferFields { inst with selVal := some s.toLower }).display g)
    ∧ (toggleOfferFields (sampleInline "Lesson")).display Field.hours = ""
    ∧ (toggleFields (sampleInline "Lesson")).display Field.hours = "none" := by
  refine ⟨?_, ?_, ?_⟩
  · intro inst s g
    simp only [toggleOfferFields]
    rw [toggleOfferFieldsWith_display fieldsOrder _ s rfl g,
      toggleOfferFieldsWith_display fieldsOrder _ s.toLower rfl g,
      stringToLower_idem]
  · simp only [toggleOfferFields]
    rw [toggleOfferFieldsWith_display fieldsOrder _ "Lesson" rfl Field.hours,
      toLower_mixed_lesson]
    decide
  · simp only [toggleFields]
    rw [toggleFieldsWith_display fieldsOrder _ "Lesson" rfl Field.hours]
    decide

/-- C9: in `toggleFields` every selector value outside lesson, course,
experience — "rental", the empty string, and any mixed-case or unrecognized
string included — hides every locatable row: the fallback of this variant is
hide-all. -/
theorem c9_variant2_fallback_hides (v : String)
    (hv : v ∉ (["lesson", "course", "experience"] : List String))
    (inst : Inline) (hsel : inst.selVal = some v) (g : Field)
    (hloc : inst.located g = true) :
    (toggleFields inst).display g = "none" := by
  simp only [List.mem_cons, List.not_mem_nil, or_false, not_or] at hv
  obtain ⟨h1, h2, h3⟩ := hv
  have hc : g ∈ fieldsOrder ∧ inst.located g = true := ⟨mem_fieldsOrder g, hloc⟩
  simp only [toggleFields]
  rw [toggleFieldsWith_display fieldsOrder inst v hsel g, if_pos hc]
  simp [ifChainDisplay, h1, h2, h3]

/-- Witness for C9: "rental" has no branch in `toggleFields`, so the hours row
of a fully locatable inline is hidden. -/
theorem c9_variant2_fallback_hides_witness :
    (toggleFields (sampleInline "rental")).display Field.hours = "none" :=
  c9_variant2_fallback_hides "rental" (by decide) (sampleInline "rental") rfl
    Field.hours rfl

/-- C3: initialization (whether from page load or from the `formset:added`
handler, which forwards the inserted scope to `initOfferTypeFields`) runs one
evaluation synchronously, so the resulting state of a selector-bearing inline
already matches the selector's current value — no change event is modelled —
and a freshly inserted inline holding "course" has row displays given by the
course rule: classes and level shown, the rest hidden. -/
theorem c3_init_immediate (inst : Inline) (v : String) (hsel : inst.selVal = some v)
    (g : Field) (hloc : inst.located g = true) :
    initOfferTypeFields [inst] = [initStep1 inst]
    ∧ formsetAddedFields [inst] = [initStep1 inst]
    ∧ (initStep1 inst).display g = switchDisplay v.toLower g
    ∧ (v = "course" → (initStep1 inst).display g
        = (if g ∈ courseFields then "" else "none")) := by
  have hstep : initStep1 inst
      = toggleOfferFields
          { inst with selVal := some v, listeners := inst.listeners + 1 } := by
    simp only [initStep1, hsel]
  have hsel2 :
      ({ inst with selVal := some v, listeners := inst.listeners + 1 } : Inline).selVal
        = some v := rfl
  have hc : g ∈ fieldsOrder
      ∧ ({ inst with selVal := some v, listeners := inst.listeners + 1 } : Inline).located g
          = true :=
    ⟨mem_fieldsOrder g, hloc⟩
  have hd : (initStep1 inst).display g = switchDisplay v.toLower g := by
    rw [hstep]
    simp only [toggleOfferFields]
    rw [toggleOfferFieldsWith_display fieldsOrder _ v hsel2 g, if_pos hc]
  refine ⟨rfl, rfl, hd, ?_⟩
  intro hv
  subst hv
  rw [hd, toLower_course]
  cases g <;> decide

/-- Witness for C3: a fresh inline holding "course" with all rows locatable
shows the classes row immediately after initialization. -/
theorem c3_init_immediate_witness :
    (initStep1 (sampleInline "course")).display Field.classes
      = (if Field.classes ∈ courseFields then "" else "none") :=
  (c3_init_immediate (sampleInline "course") "course" rfl Field.classes rfl).2.2.2 rfl

/-- C4: setting the selector of the inline at index `i` and firing its change
listener (which runs `toggleOfferFields`, scoped to that inline) leaves every
other inline of the page — rows, displays, selector, listeners — unchanged. -/
theorem c4_isolation (page : List Inline) (i j : Nat) (v : String)
    (hne : j ≠ i) :
    (changeModeAndFire page i v).get? j = page.get? j :=
  updateAt_get_ne page i j _ hne

/-- Witness for C4: toggling the first of two inlines leaves the second intact. -/
theorem c4_isolation_witness :
    (changeModeAndFire twoInlinePage 0 "rental").get? 1 = twoInlinePage.get? 1 :=
  c4_isolation twoInlinePage 0 1 "rental" (by decide)

/-- C5: a visibility evaluation is idempotent in both variants — running it
twice on an inline gives exactly the state of running it once. -/
theorem c5_idempotent (inst : Inline) :
    toggleOfferFields (toggleOfferFields inst) = toggleOfferFields inst
    ∧ toggleFields (toggleFields inst) = toggleFields inst := by
  constructor
  · cases hsel : inst.selVal with
    | none =>
      have h : toggleOfferFields inst = inst := by
        simp only [toggleOfferFields, toggleOfferFieldsWith, hsel]
      rw [h, h]
    | some v =>
      have h : toggleOfferFields inst = runToggle switchDisplay fieldsOrder v.toLower inst :=
        toggleOfferFields_eq inst v hsel
      have h2 : (toggleOfferFields inst).selVal = some v := by
        rw [h, runToggle_selVal, hsel]
      rw [toggleOfferFields_eq (toggleOfferFields inst) v h2, h, runToggle_idem]
  · cases hsel : inst.selVal with
    | none =>
      have h : toggleFields inst = inst := by
        simp only [toggleFields, toggleFieldsWith, hsel]
      rw [h, h]
    | some v =>
      have h : toggleFields inst = runToggle ifChainDisplay fieldsOrder v inst :=
        toggleFields_eq inst v hsel
      have h2 : (toggleFields inst).selVal = some v := by
        rw [h, runToggle_selVal, hsel]
      rw [toggleFields_eq (toggleFields inst) v h2, h, runToggle_idem]

/-- C6: a field whose row cannot be located is skipped — the evaluation (total
in this embedding, so nothing is raised) leaves that row's display exactly as
it was in both variants — while every locatable row is still processed and
receives the computed value. -/
theorem c6_skip_unlocated (inst : Inline) (v : String) (hsel : inst.selVal = some v)
    (f : Field) (hf : inst.located f = false)
    (g : Field) (hg : inst.located g = true) :
    (toggleOfferFields inst).display f = inst.display f
    ∧ (toggleFields inst).display f = inst.display f
    ∧ (toggleOfferFields inst).display g = switchDisplay v.toLower g
    ∧ (toggleFields inst).display g = ifChainDisplay v g := by
  have hnc : ¬(f ∈ fieldsOrder ∧ inst.located f = true) := by
    simp [hf]
  have hc : g ∈ fieldsOrder ∧ inst.located g = true := ⟨mem_fieldsOrder g, hg⟩
  refine ⟨?_, ?_, ?_, ?_⟩
  · simp only [toggleOfferFields]
    rw [toggleOfferFieldsWith_display fieldsOrder inst v hsel f, if_neg hnc]
  · simp only [toggleFields]
    rw [toggleFieldsWith_display fieldsOrder inst v hsel f, if_neg hnc]
  · simp only [toggleOfferFields]
    rw [toggleOfferFieldsWith_display fieldsOrder inst v hsel g, if_pos hc]
  · simp only [toggleFields]
    rw [toggleFieldsWith_display fieldsOrder inst v hsel g, if_pos hc]

/-- Witness for C6: an inline with an unlocatable hours row keeps that row's
prior display while its classes row is still processed. -/
theorem c6_skip_unlocated_witness :
    (toggleOfferFields gappyInline).display Field.hours = gappyInline.display Field.hours
    ∧ (toggleFields gappyInline).display Field.hours = gappyInline.display Field.hours
    ∧ (toggleOfferFields gappyInline).display Field.classes
        = switchDisplay ("lesson" : String).toLower Field.classes
    ∧ (toggleFields gappyInline).display Field.classes
        = ifChainDisplay "lesson" Field.classes :=
  c6_skip_unlocated gappyInline "lesson" rfl Field.hours rfl Field.classes rfl

/-- C7: an inline without a selector is skipped entirely by both init variants —
the element at its index is returned unchanged, so no listener is registered and
no row display mutated — while a selector-bearing inline at any other index is
still processed: listener attached, evaluation applied. -/
theorem c7_skip_no_selector (page : List Inline) (i : Nat) (hi : i < page.length)
    (hsel : (page.get ⟨i, hi⟩).selVal = none)
    (j : Nat) (hj : j < page.length) (v : String)
    (hjsel : (page.get ⟨j, hj⟩).selVal = some v) :
    (initOfferTypeFields page).get? i = page.get? i
    ∧ (initOfferTypeToggles page).get? i = page.get? i
    ∧ (initOfferTypeFields page).get? j
        = some (toggleOfferFields
            { page.get ⟨j, hj⟩ with listeners := (page.get ⟨j, hj⟩).listeners + 1 })
    ∧ (initOfferTypeToggles page).get? j
        = some (toggleFields
            { page.get ⟨j, hj⟩ with listeners := (page.get ⟨j, hj⟩).listeners + 1 }) := by
  have hgi : page.get? i = some (page.get ⟨i, hi⟩) := List.get?_eq_get hi
  have hgj : page.get? j = some (page.get ⟨j, hj⟩) := List.get?_eq_get hj
  refine ⟨?_, ?_, ?_, ?_⟩
  · simp only [initOfferTypeFields]
    rw [get?_map_inline initStep1 page i, hgi]
    show some (initStep1 (page.get ⟨i, hi⟩)) = some (page.get ⟨i, hi⟩)
    simp only [initStep1, hsel]
  · simp only [initOfferTypeToggles]
    rw [get?_map_inline initStep2 page i, hgi]
    show some (initStep2 (page.get ⟨i, hi⟩)) = some (page.get ⟨i, hi⟩)
    simp only [initStep2, hsel]
  · simp only [initOfferTypeFields]
    rw [get?_map_inline initStep1 page j, hgj]
    show some (initStep1 (page.get ⟨j, hj⟩)) = _
    simp only [initStep1, hjsel]
  · simp only [initOfferTypeToggles]
    rw [get?_map_inline initStep2 page j, hgj]
    show some (initStep2 (page.get ⟨j, hj⟩)) = _
    simp only [initStep2, hjsel]

/-- Witness for C7 on a two-inline page: the selector-less first inline is left
untouched and the selector-bearing second inline is processed. -/
theorem c7_skip_no_selector_witness :
    (initOfferTypeFields mixedPage).get? 0 = mixedPage.get? 0
    ∧ (initOfferTypeToggles mixedPage).get? 0 = mixedPage.get? 0
    ∧ (initOfferTypeFields mixedPage).get? 1
        = some (toggleOfferFields
            { mixedPage.get ⟨1, by decide⟩ with
                listeners := (mixedPage.get ⟨1, by decide⟩).listeners + 1 })
    ∧ (initOfferTypeToggles mixedPage).get? 1
        = some (toggleFields
            { mixedPage.get ⟨1, by decide⟩ with
                listeners := (mixedPage.get ⟨1, by decide⟩).listeners + 1 }) :=
  c7_skip_no_selector mixedPage 0 (by decide) rfl 1 (by decide) "lesson" rfl

/-- C10: `closeDrawer` dereferences the drawer unconditionally, yet header.js
registers it on the overlay and on the close button whenever those elements
exist, without requiring the drawer to exist; on a page having either element
but no `.mobile-drawer`, the click throws a TypeError instead of degrading
silently. -/
theorem c10_close_drawer_null_deref (p : HeaderPage) (hd : p.mobileDrawer = none) :
    (p.hasOverlay = true → clickOverlay p = Except.error "TypeError")
    ∧ (p.hasCloseBtn = true → clickCloseBtn p = Except.error "TypeError") := by
  constructor
  · intro ho
    simp only [clickOverlay, ho, if_true, closeDrawer, hd]
  · intro hcb
    simp only [clickCloseBtn, hcb, if_true, closeDrawer, hd]

/-- Witness for C10: a page with overlay and close button but no drawer throws
on an overlay click. -/
theorem c10_close_drawer_null_deref_witness :
    clickOverlay drawerlessPage = Except.error "TypeError" :=
  (c10_close_drawer_null_deref drawerlessPage rfl).1 rfl

end TravelWild
